import Mathlib

/-!
A shallow embedding of the DotBattle simulation core (`src/sim/simulation.ts`,
class `Simulation`) together with proofs about the claims of its specification.

Numbers are modelled by the real numbers `ℝ` (the source computes on JS
numbers; the spec describes positions, velocities and sizes as reals).
Randomness (`Math.random()`) is modelled by an explicit stream `rand : ℕ → ℝ`
of draws, consumed in call order.  The mutable `this.dots` array is a
`List Dot` threaded through the functions; per-dot in-place mutation becomes
`List.set` at the dot's index, and JS object identity (`other === dot`)
becomes index equality.  The spatial grid `this.gridCells` is modelled as a
function from an (integer) cell coordinate to the bucket of dot indices
pushed into that cell, in push order.

Rendering, the `requestAnimationFrame` loop, stats emission, and the
hover/menu-dot UI state are outside the embedded core; the embedded state
keeps exactly the fields that the tick algorithm (`update`, `runMovement`,
`resolveBattles`) and the population operations (`init`, `setControls`,
`setPalette`) read or write.

`resolveBattles` additionally returns the list of executed conversion
contests (one `(i, j)` entry per executed weighted draw, in execution
order) as a ghost event log; it does not influence the computed state and
exists so that temporal claims about battle resolution can be stated.
-/

namespace DotBattle

noncomputable section

/-- An agent (`Dot` in `src/sim/types.ts`). -/
structure Dot where
  x : ℝ
  y : ℝ
  vx : ℝ
  vy : ℝ
  size : ℝ
  faction : ℕ

instance : Inhabited Dot := ⟨⟨0, 0, 0, 0, 0, 0⟩⟩

/-- `MouseState` in `src/sim/types.ts`. -/
structure MouseState where
  x : ℝ
  y : ℝ
  active : Bool

/-- `ClickImpulse` in `src/sim/types.ts`. -/
structure ClickImpulse where
  x : ℝ
  y : ℝ
  radius : ℝ
  radiusSq : ℝ
  strength : ℝ
  duration : ℝ
  elapsed : ℝ
  decay : ℝ

/-- `SimControls` in `src/sim/types.ts`. -/
structure SimControls where
  count : ℕ
  speed : ℝ
  minSize : ℝ
  maxSize : ℝ
  battleRadius : ℝ
  magnetStrength : ℝ
  mouseAttraction : ℝ
  mouseRange : ℝ
  repelAll : Bool

/-- The fields of `Simulation` that the tick algorithm reads or writes. -/
structure SimState where
  viewWidth : ℝ
  viewHeight : ℝ
  controls : SimControls
  dots : List Dot
  mouse : MouseState
  clickImpulse : Option ClickImpulse

/-- `arenaPadding.left` in `Simulation` (constant `12`). -/
def padLeft : ℝ := 12

/-- `arenaPadding.right` in `Simulation` (constant `12`). -/
def padRight : ℝ := 12

/-- `arenaPadding.top` in `Simulation` (constant `12`). -/
def padTop : ℝ := 12

/-- `arenaPadding.bottom` in `Simulation` (constant `20`). -/
def padBottom : ℝ := 20

/-- `Simulation.setControls`: replaces the controls snapshot, nothing else. -/
def setControls (s : SimState) (next : SimControls) : SimState :=
  { s with controls := next }

/-- `Simulation.setPalette` (the palette is abstracted to its list of colour
codes; only its length is read by the simulation core). -/
def setPalette (s : SimState) (colors : List ℕ) : SimState :=
  if colors.length = 0 then { s with dots := [] }
  else { s with dots := s.dots.map fun d => { d with faction := d.faction % colors.length } }

/-- Modelled from the spec: the helper `rand(min, max)` imported from
`src/utils/math` is not among the provided sources.  The spec states that
spawn values are uniformly random in the given range, i.e.
`lo + u * (hi - lo)` for a uniform draw `u ∈ [0, 1)`. -/
def randRange (u lo hi : ℝ) : ℝ := lo + u * (hi - lo)

/-- `Simulation.spawnDot`; the three uniform draws it makes (size, angle,
speed) are passed explicitly. -/
def spawnDot (u1 u2 u3 : ℝ) (faction : ℕ) (x y minSize maxSize : ℝ) : Dot :=
  let size := randRange u1 minSize maxSize
  let angle := randRange u2 0 (2 * Real.pi)
  let speed := randRange u3 0.4 1.0
  { x := x, y := y, vx := Real.cos angle * speed, vy := Real.sin angle * speed,
    size := size, faction := faction }

/-- `Simulation.init`: respawns the population.  `palette` stands for
`this.getPalette()`; `u` is the stream of uniform draws, six per dot
(faction, x, y, then the three draws inside `spawnDot`). -/
def initSim (s : SimState) (palette : List ℕ) (u : ℕ → ℝ) : SimState :=
  let factions := palette.length
  if factions = 0 then { s with dots := [] }
  else
    let spawned := (List.range s.controls.count).map fun k =>
      spawnDot (u (6 * k + 3)) (u (6 * k + 4)) (u (6 * k + 5))
        (Int.toNat ⌊randRange (u (6 * k)) 0 (factions : ℝ)⌋)
        (randRange (u (6 * k + 1)) padLeft (s.viewWidth - padRight))
        (randRange (u (6 * k + 2)) padTop (s.viewHeight - padBottom))
        s.controls.minSize s.controls.maxSize
    { s with dots := spawned }

/-- `influenceRadius` of `Simulation.runMovement`: `Math.max(8, maxSize * 5)`. -/
def influenceRadiusOf (c : SimControls) : ℝ := max 8 (c.maxSize * 5)

/-- The cell a dot is bucketed into (`runMovement` lines building
`gridCells`): floored coordinate over the cell size, clamped into the valid
index range. -/
def cellOf (cols rows : ℤ) (cellSize : ℝ) (d : Dot) : ℤ × ℤ :=
  (min (cols - 1) (max 0 ⌊d.x / cellSize⌋), min (rows - 1) (max 0 ⌊d.y / cellSize⌋))

/-- The rebuilt `this.gridCells`: each dot index is pushed, in list order,
onto the bucket of its (clamped) cell. -/
def buildGrid (cols rows : ℤ) (cellSize : ℝ) (dots : List Dot) : ℤ × ℤ → List ℕ :=
  (List.range dots.length).foldl
    (fun g i c =>
      if c = cellOf cols rows cellSize (dots.getD i default) then g c ++ [i] else g c)
    fun _ => []

/-- The 3×3 neighbourhood offsets `(oy, ox)`, in the source's loop order
(`oy` outer from `-1` to `1`, `ox` inner). -/
def offsets : List (ℤ × ℤ) :=
  [(-1, -1), (-1, 0), (-1, 1), (0, -1), (0, 0), (0, 1), (1, -1), (1, 0), (1, 1)]

/-- The force sign of the neighbour pass
(`repelAll ? -1 : other.faction === dot.faction ? -1 : 1`). -/
def battleSign (repelAll : Bool) (fDot fOther : ℕ) : ℝ :=
  if repelAll then -1 else if fOther = fDot then -1 else 1

/-- The per-neighbour force contribution of `runMovement`'s inner loop
(lines computing `dx` through `ay +=`): zero when the pair coincides or is
out of influence range, otherwise the normalized direction scaled by the
falloff force and the group-dependent sign. -/
def pairAccel (c : SimControls) (influenceRadius : ℝ) (d other : Dot) : ℝ × ℝ :=
  let dx := other.x - d.x
  let dy := other.y - d.y
  let distSq := dx * dx + dy * dy
  let sizeFactor := other.size / c.maxSize
  let effectiveRadius := influenceRadius * (0.6 + sizeFactor)
  if distSq = 0 ∨ effectiveRadius * effectiveRadius < distSq then (0, 0)
  else
    let dist := Real.sqrt distSq
    let dirX := dx / dist
    let dirY := dy / dist
    let falloff := 1 - dist / effectiveRadius
    let force := c.magnetStrength / 100 * falloff * (0.5 + sizeFactor * sizeFactor)
    let sign := battleSign c.repelAll d.faction other.faction
    (dirX * force * sign, dirY * force * sign)

/-- The velocity cap of `runMovement` (`maxSpeed = 3`): rescale the velocity
to magnitude `3` when `Math.hypot(vx, vy)` exceeds `3`. -/
def clampSpeed (vx vy : ℝ) : ℝ × ℝ :=
  let speed := Real.sqrt (vx * vx + vy * vy)
  if speed > 3 then (vx / speed * 3, vy / speed * 3) else (vx, vy)

/-- The neighbour-force accumulation of `runMovement`'s main loop for dot
`i`: sum of `pairAccel` over every dot found in the 3×3 cell neighbourhood,
in the source's scan order, skipping the dot itself. -/
def neighborAccel (c : SimControls) (grid : ℤ × ℤ → List ℕ) (cols rows : ℤ)
    (cellSize influenceRadius : ℝ) (ds : List Dot) (i : ℕ) : ℝ × ℝ :=
  let d := ds.getD i default
  let cx := min (cols - 1) (max 0 ⌊d.x / cellSize⌋)
  let cy := min (rows - 1) (max 0 ⌊d.y / cellSize⌋)
  offsets.foldl
    (fun acc o =>
      let ny := cy + o.1
      let nx := cx + o.2
      if nx < 0 ∨ ny < 0 ∨ cols ≤ nx ∨ rows ≤ ny then acc
      else
        (grid (nx, ny)).foldl
          (fun acc j =>
            if j = i then acc
            else
              let f := pairAccel c influenceRadius d (ds.getD j default)
              (acc.1 + f.1, acc.2 + f.2))
          acc)
    ((0 : ℝ), (0 : ℝ))

/-- The mouse-attraction step of `runMovement` applied to velocity `v`
(skipped when the pointer is inactive or the attraction strength is zero). -/
def mouseForce (mouse : MouseState) (c : SimControls) (dt : ℝ) (d : Dot) (v : ℝ × ℝ) : ℝ × ℝ :=
  if mouse.active ∧ c.mouseAttraction ≠ 0 then
    let dx := mouse.x - d.x
    let dy := mouse.y - d.y
    let distSq := dx * dx + dy * dy
    if 0 < distSq ∧ distSq ≤ c.mouseRange * c.mouseRange then
      let dist := Real.sqrt distSq
      let falloff := 1 - dist / c.mouseRange
      let force := c.mouseAttraction * 3 * falloff
      (v.1 + dx / dist * force * dt, v.2 + dy / dist * force * dt)
    else v
  else v

/-- The click-impulse step of `runMovement` applied to velocity `v`. -/
def impulseForce (imp? : Option ClickImpulse) (dt : ℝ) (d : Dot) (v : ℝ × ℝ) : ℝ × ℝ :=
  match imp? with
  | none => v
  | some imp =>
    let dx := d.x - imp.x
    let dy := d.y - imp.y
    let distSq := dx * dx + dy * dy
    if 0 < distSq ∧ distSq ≤ imp.radiusSq then
      let dist := Real.sqrt distSq
      let falloff := 1 - dist / imp.radius
      let force := imp.strength * falloff * imp.decay
      (v.1 + dx / dist * force * dt, v.2 + dy / dist * force * dt)
    else v

/-- The tail of `runMovement`'s main loop for one dot: wall forces, position
integration, bounce with damping `0.6`, and the final position clamp into
`[left, right] × [top, bottom]`. -/
def wallIntegrate (W H : ℝ) (c : SimControls) (influenceRadius dt : ℝ) (d : Dot)
    (v : ℝ × ℝ) : Dot :=
  let wallRadius := max 20 (influenceRadius * 0.5)
  let left := padLeft + d.size
  let right := W - padRight - d.size
  let top := padTop + d.size
  let bottom := H - padBottom - d.size
  let leftDist := d.x - left
  let rightDist := right - d.x
  let topDist := d.y - top
  let bottomDist := bottom - d.y
  let vx5 := if leftDist < wallRadius then v.1 + (1 - leftDist / wallRadius) * 0.4 * dt else v.1
  let vx6 := if rightDist < wallRadius then vx5 - (1 - rightDist / wallRadius) * 0.4 * dt else vx5
  let vy5 := if topDist < wallRadius then v.2 + (1 - topDist / wallRadius) * 0.4 * dt else v.2
  let vy6 := if bottomDist < wallRadius then vy5 - (1 - bottomDist / wallRadius) * 0.4 * dt else vy5
  let x1 := d.x + vx6 * dt * (c.speed / 100)
  let y1 := d.y + vy6 * dt * (c.speed / 100)
  let vx7 := if x1 ≤ left ∨ right ≤ x1 then vx6 * (-0.6) else vx6
  let vy7 := if y1 ≤ top ∨ bottom ≤ y1 then vy6 * (-0.6) else vy6
  { d with x := max left (min right x1), y := max top (min bottom y1), vx := vx7, vy := vy7 }

/-- One dot's pass of `runMovement`'s main loop: neighbour forces, velocity
cap, mouse attraction, click impulse, then wall forces, integration, bounce
and the final position clamp.  `ds` is the current dot array (dots earlier
in the loop have already been updated in place); `grid` is the grid built
at the start of the tick. -/
def moveDot (s : SimState) (grid : ℤ × ℤ → List ℕ) (cols rows : ℤ)
    (cellSize influenceRadius dt : ℝ) (ds : List Dot) (i : ℕ) : Dot :=
  let c := s.controls
  let d := ds.getD i default
  let acc := neighborAccel c grid cols rows cellSize influenceRadius ds i
  let v1 := (d.vx + acc.1 * dt, d.vy + acc.2 * dt)
  let v2 := clampSpeed v1.1 v1.2
  let v3 := mouseForce s.mouse c dt d v2
  let v4 := impulseForce s.clickImpulse dt d v3
  wallIntegrate s.viewWidth s.viewHeight c influenceRadius dt d v4

/-- `Simulation.runMovement`: rebuild the grid from the current dots, then
update every dot in list order.  Returns the new state together with the
grid it built (`this.gridCells`, which `resolveBattles` reads afterwards). -/
def runMovement (s : SimState) (dt : ℝ) : SimState × (ℤ × ℤ → List ℕ) :=
  let c := s.controls
  let influenceRadius := influenceRadiusOf c
  let cellSize := max 8 influenceRadius
  let cols := ⌈s.viewWidth / cellSize⌉
  let rows := ⌈s.viewHeight / cellSize⌉
  let grid := buildGrid cols rows cellSize s.dots
  let moved := (List.range s.dots.length).foldl
    (fun ds i => ds.set i (moveDot s grid cols rows cellSize influenceRadius dt ds i))
    s.dots
  ({ s with dots := moved }, grid)

/-- The state threaded through `resolveBattles`: the dot array, the number of
random draws consumed so far, and the ghost log of executed contests. -/
structure BState where
  dots : List Dot
  k : ℕ
  events : List (ℕ × ℕ)

/-- The weighted draw of `resolveBattles` (lines computing `dotWeight`,
`otherWeight`, `roll` and overwriting the loser's faction): `r` is the
uniform draw, `roll = r * (dotWeight + otherWeight)`; the first component is
the updated `dot`, the second the updated `other`. -/
def battleOutcome (d other : Dot) (r : ℝ) : Dot × Dot :=
  let dotWeight := d.size * d.size
  let otherWeight := other.size * other.size
  let roll := r * (dotWeight + otherWeight)
  if roll < dotWeight then (d, { other with faction := d.faction })
  else ({ d with faction := other.faction }, other)

/-- One encounter of `resolveBattles`'s innermost loop for the index pair
`p = (i, j)`: skipped when `i = j` (object identity) or the factions agree
or the pair is out of battle range; otherwise a weighted draw is executed. -/
def battleStep (battleRadiusSq : ℝ) (rand : ℕ → ℝ) (b : BState) (p : ℕ × ℕ) : BState :=
  let d := b.dots.getD p.1 default
  let other := b.dots.getD p.2 default
  if p.2 = p.1 ∨ other.faction = d.faction then b
  else
    let dx := other.x - d.x
    let dy := other.y - d.y
    let distSq := dx * dx + dy * dy
    if distSq ≤ battleRadiusSq then
      let out := battleOutcome d other (rand b.k)
      { dots := (b.dots.set p.1 out.1).set p.2 out.2, k := b.k + 1,
        events := b.events ++ [(p.1, p.2)] }
    else b

/-- The sequence of index pairs visited by `resolveBattles`'s loop nest, in
source order: cells row-major, each cell's bucket in push order, the 3×3
neighbourhood in `offsets` order, the neighbour bucket in push order.  The
sequence depends only on the grid, never on the mutated factions. -/
def battleEncounters (grid : ℤ × ℤ → List ℕ) (cols rows : ℤ) : List (ℕ × ℕ) :=
  (List.range rows.toNat).flatMap fun cy =>
    (List.range cols.toNat).flatMap fun cx =>
      (grid ((cx : ℤ), (cy : ℤ))).flatMap fun i =>
        offsets.flatMap fun o =>
          let ny := (cy : ℤ) + o.1
          let nx := (cx : ℤ) + o.2
          if nx < 0 ∨ ny < 0 ∨ cols ≤ nx ∨ rows ≤ ny then []
          else (grid (nx, ny)).map fun j => (i, j)

/-- `Simulation.resolveBattles`: fold the encounter sequence through
`battleStep`.  Returns the new state and the ghost event log. -/
def resolveBattles (s : SimState) (grid : ℤ × ℤ → List ℕ) (battleRadius : ℝ)
    (rand : ℕ → ℝ) : SimState × List (ℕ × ℕ) :=
  let cols := ⌈s.viewWidth / max 8 (s.controls.maxSize * 5)⌉
  let rows := ⌈s.viewHeight / max 8 (s.controls.maxSize * 5)⌉
  let b := (battleEncounters grid cols rows).foldl
    (battleStep (battleRadius * battleRadius) rand) ⟨s.dots, 0, []⟩
  ({ s with dots := b.dots }, b.events)

/-- The click-impulse decay step at the top of `Simulation.update`. -/
def impulseDecay (s : SimState) (dt : ℝ) : SimState :=
  match s.clickImpulse with
  | none => s
  | some imp =>
    let elapsed := imp.elapsed + dt * 16.67
    let decay := max 0 (1 - elapsed / imp.duration)
    if decay = 0 then { s with clickImpulse := none }
    else { s with clickImpulse := some { imp with elapsed := elapsed, decay := decay } }

/-- `Simulation.update`: impulse decay, movement, and — only when
`battleRadius > 0` — battle resolution over the grid the movement pass
built.  The second component is the ghost log of executed contests. -/
def update (s : SimState) (dt : ℝ) (rand : ℕ → ℝ) : SimState × List (ℕ × ℕ) :=
  let battleRadius := s.controls.battleRadius
  let s1 := impulseDecay s dt
  let m := runMovement s1 dt
  if battleRadius ≤ 0 then (m.1, [])
  else resolveBattles m.1 m.2 battleRadius rand

/-- `n` consecutive ticks (`update` applied `n` times, same `dt` and draw
stream each tick). -/
def iterUpdate (s : SimState) (dt : ℝ) (rand : ℕ → ℝ) : ℕ → SimState
  | 0 => s
  | n + 1 => (update (iterUpdate s dt rand n) dt rand).1

/-- The number of times the unordered pair `{i, j}` occurs in an event log. -/
def countPair (evs : List (ℕ × ℕ)) (i j : ℕ) : ℕ :=
  (evs.filter fun p => decide (p = (i, j) ∨ p = (j, i))).length

/-- Equality of all agent fields except the faction. -/
def physEq (a b : Dot) : Prop :=
  a.x = b.x ∧ a.y = b.y ∧ a.vx = b.vx ∧ a.vy = b.vy ∧ a.size = b.size

/-- Position within the padded band enforced by the final clamp of the
movement pass, for an arena of dimensions `W × H`. -/
def InPad (W H : ℝ) (d : Dot) : Prop :=
  padLeft + d.size ≤ d.x ∧ d.x ≤ W - padRight - d.size ∧
  padTop + d.size ≤ d.y ∧ d.y ≤ H - padBottom - d.size

/-- The arena is large enough for this dot: the clamp interval of the
movement pass is nonempty on both axes. -/
def SaneFor (W H : ℝ) (d : Dot) : Prop :=
  padLeft + d.size ≤ W - padRight - d.size ∧ padTop + d.size ≤ H - padBottom - d.size

/-- Controls used by the concrete scenarios: repulsion mode (zero battle
radius), zero speed scalar, pointer attraction off. -/
def cexControls : SimControls :=
  { count := 500, speed := 0, minSize := 2, maxSize := 6, battleRadius := 0,
    magnetStrength := 80, mouseAttraction := 0, mouseRange := 150, repelAll := false }

/-- An inactive pointer. -/
def idleMouse : MouseState := { x := 0, y := 0, active := false }

/-- A dot already moving at the speed cap, sitting close to the left and top
walls of a 60 × 60 arena. -/
def capDot : Dot := { x := 15, y := 15, vx := 3, vy := 0, size := 2, faction := 0 }

/-- 60 × 60 arena holding just `capDot`, repulsion mode. -/
def capState : SimState :=
  { viewWidth := 60, viewHeight := 60, controls := cexControls, dots := [capDot],
    mouse := idleMouse, clickImpulse := none }

/-- Battle-mode controls (battle radius `10`) for the three-dot scenario. -/
def battleControls : SimControls := { cexControls with battleRadius := 10, count := 3 }

/-- Three coincident stationary dots of three distinct factions. -/
def bDot0 : Dot := { x := 15, y := 18, vx := 0, vy := 0, size := 2, faction := 0 }

/-- Second dot of the three-dot battle scenario. -/
def bDot1 : Dot := { bDot0 with faction := 1 }

/-- Third dot of the three-dot battle scenario. -/
def bDot2 : Dot := { bDot0 with faction := 2 }

/-- 30 × 44 arena (a single grid column) holding the three coincident dots,
battle mode. -/
def battleState : SimState :=
  { viewWidth := 30, viewHeight := 44, controls := battleControls,
    dots := [bDot0, bDot1, bDot2], mouse := idleMouse, clickImpulse := none }

/-- The draw stream for the three-dot scenario: the second draw favours the
other side, every other draw favours `dot`. -/
def battleRand : ℕ → ℝ := fun n => if n = 1 then 3 / 4 else 1 / 8

/-! ### General helper lemmas -/

theorem getD_set {α : Type _} (l : List α) (i j : ℕ) (v d : α) :
    (l.set i v).getD j d = if i = j ∧ j < l.length then v else l.getD j d := by
  simp only [List.getD_eq_getElem?_getD, List.getElem?_set]
  by_cases h : i = j
  · subst h
    by_cases hl : i < l.length
    · simp [hl]
    · simp [hl, List.getElem?_eq_none (le_of_not_lt hl)]
  · simp [h]

theorem foldl_preserves {α : Type _} {β : Type _} (step : α → β → α) (P : α → Prop)
    (h : ∀ a b, P a → P (step a b)) :
    ∀ (l : List β) (a : α), P a → P (l.foldl step a) := by
  intro l
  induction l with
  | nil => exact fun a ha => ha
  | cons b t ih => exact fun a ha => ih _ (h a b ha)

theorem physEq_refl (a : Dot) : physEq a a := ⟨rfl, rfl, rfl, rfl, rfl⟩

theorem physEq_trans {a b c : Dot} (h1 : physEq a b) (h2 : physEq b c) : physEq a c := by
  obtain ⟨x1, y1, vx1, vy1, s1⟩ := h1
  obtain ⟨x2, y2, vx2, vy2, s2⟩ := h2
  exact ⟨x1.trans x2, y1.trans y2, vx1.trans vx2, vy1.trans vy2, s1.trans s2⟩

/-! ### Frame lemmas about the tick functions -/

theorem impulseDecay_frame (s : SimState) (dt : ℝ) :
    (impulseDecay s dt).dots = s.dots ∧ (impulseDecay s dt).viewWidth = s.viewWidth ∧
    (impulseDecay s dt).viewHeight = s.viewHeight ∧
    (impulseDecay s dt).controls = s.controls ∧ (impulseDecay s dt).mouse = s.mouse := by
  unfold impulseDecay
  cases s.clickImpulse with
  | none => exact ⟨rfl, rfl, rfl, rfl, rfl⟩
  | some imp =>
    dsimp only
    split
    · exact ⟨rfl, rfl, rfl, rfl, rfl⟩
    · exact ⟨rfl, rfl, rfl, rfl, rfl⟩

theorem moveDot_size (s : SimState) (grid : ℤ × ℤ → List ℕ) (cols rows : ℤ)
    (cellSize ir dt : ℝ) (ds : List Dot) (i : ℕ) :
    (moveDot s grid cols rows cellSize ir dt ds i).size = (ds.getD i default).size := rfl

theorem runMovement_frame (s : SimState) (dt : ℝ) :
    (runMovement s dt).1.viewWidth = s.viewWidth ∧
    (runMovement s dt).1.viewHeight = s.viewHeight ∧
    (runMovement s dt).1.controls = s.controls ∧ (runMovement s dt).1.mouse = s.mouse :=
  ⟨rfl, rfl, rfl, rfl⟩

theorem runMovement_dots_length (s : SimState) (dt : ℝ) :
    (runMovement s dt).1.dots.length = s.dots.length := by
  unfold runMovement
  dsimp only
  exact foldl_preserves _ (fun ds : List Dot => ds.length = s.dots.length)
    (fun ds i h => by simp only [List.length_set]; exact h) _ _ rfl

theorem runMovement_dots_size (s : SimState) (dt : ℝ) (q : ℕ) :
    ((runMovement s dt).1.dots.getD q default).size = (s.dots.getD q default).size := by
  unfold runMovement
  dsimp only
  refine foldl_preserves _
    (fun ds : List Dot => ∀ r : ℕ, (ds.getD r default).size = (s.dots.getD r default).size)
    (fun ds i h => ?_) (List.range s.dots.length) s.dots (fun r => rfl) q
  intro r
  rw [getD_set]
  split
  · next hc =>
    rw [moveDot_size]
    exact (h i).trans (by rw [hc.1])
  · exact h r

theorem battleOutcome_phys (d other : Dot) (r : ℝ) :
    physEq (battleOutcome d other r).1 d ∧ physEq (battleOutcome d other r).2 other := by
  unfold battleOutcome
  dsimp only
  split
  · exact ⟨physEq_refl d, ⟨rfl, rfl, rfl, rfl, rfl⟩⟩
  · exact ⟨⟨rfl, rfl, rfl, rfl, rfl⟩, physEq_refl other⟩

theorem battleStep_dots_length (brSq : ℝ) (rand : ℕ → ℝ) (b : BState) (p : ℕ × ℕ) :
    (battleStep brSq rand b p).dots.length = b.dots.length := by
  unfold battleStep
  dsimp only
  split
  · rfl
  · split
    · simp [List.length_set]
    · rfl

theorem battleStep_phys (brSq : ℝ) (rand : ℕ → ℝ) (b : BState) (p : ℕ × ℕ) (q : ℕ) :
    physEq ((battleStep brSq rand b p).dots.getD q default) (b.dots.getD q default) := by
  unfold battleStep
  dsimp only
  split
  · exact physEq_refl _
  · split
    · rw [getD_set, getD_set]
      split
      · next hc =>
        obtain ⟨rfl, -⟩ := hc
        exact (battleOutcome_phys _ _ _).2
      · split
        · next hc =>
          obtain ⟨rfl, -⟩ := hc
          exact (battleOutcome_phys _ _ _).1
        · exact physEq_refl _
    · exact physEq_refl _

theorem resolveBattles_frame (s : SimState) (grid : ℤ × ℤ → List ℕ) (br : ℝ)
    (rand : ℕ → ℝ) :
    (resolveBattles s grid br rand).1.viewWidth = s.viewWidth ∧
    (resolveBattles s grid br rand).1.viewHeight = s.viewHeight ∧
    (resolveBattles s grid br rand).1.controls = s.controls :=
  ⟨rfl, rfl, rfl⟩

theorem resolveBattles_dots_phys (s : SimState) (grid : ℤ × ℤ → List ℕ) (br : ℝ)
    (rand : ℕ → ℝ) :
    (resolveBattles s grid br rand).1.dots.length = s.dots.length ∧
    ∀ q : ℕ, physEq ((resolveBattles s grid br rand).1.dots.getD q default)
      (s.dots.getD q default) := by
  unfold resolveBattles
  dsimp only
  have key : ∀ (l : List (ℕ × ℕ)) (b : BState),
      (b.dots.length = s.dots.length ∧
        ∀ q : ℕ, physEq (b.dots.getD q default) (s.dots.getD q default)) →
      ((l.foldl (battleStep (br * br) rand) b).dots.length = s.dots.length ∧
        ∀ q : ℕ, physEq ((l.foldl (battleStep (br * br) rand) b).dots.getD q default)
          (s.dots.getD q default)) := by
    refine foldl_preserves _ _ (fun b p hb => ?_)
    exact ⟨(battleStep_dots_length _ _ _ _).trans hb.1,
      fun q => physEq_trans (battleStep_phys _ _ _ _ q) (hb.2 q)⟩
  exact key _ _ ⟨rfl, fun q => physEq_refl _⟩

theorem update_frame (s : SimState) (dt : ℝ) (rand : ℕ → ℝ) :
    (update s dt rand).1.viewWidth = s.viewWidth ∧
    (update s dt rand).1.viewHeight = s.viewHeight ∧
    (update s dt rand).1.controls = s.controls := by
  unfold update
  dsimp only
  obtain ⟨hd, hw, hh, hc, -⟩ := impulseDecay_frame s dt
  obtain ⟨mw, mh, mc, -⟩ := runMovement_frame (impulseDecay s dt) dt
  split
  · exact ⟨mw.trans hw, mh.trans hh, mc.trans hc⟩
  · obtain ⟨bw, bh, bc⟩ := resolveBattles_frame (runMovement (impulseDecay s dt) dt).1
      (runMovement (impulseDecay s dt) dt).2 s.controls.battleRadius rand
    exact ⟨bw.trans (mw.trans hw), bh.trans (mh.trans hh), bc.trans (mc.trans hc)⟩

theorem update_dots_length (s : SimState) (dt : ℝ) (rand : ℕ → ℝ) :
    (update s dt rand).1.dots.length = s.dots.length := by
  unfold update
  dsimp only
  have hd : (impulseDecay s dt).dots = s.dots := (impulseDecay_frame s dt).1
  have hm : (runMovement (impulseDecay s dt) dt).1.dots.length = s.dots.length := by
    rw [runMovement_dots_length, hd]
  split
  · exact hm
  · exact ((resolveBattles_dots_phys _ _ _ _).1).trans hm

theorem update_dots_size (s : SimState) (dt : ℝ) (rand : ℕ → ℝ) (q : ℕ) :
    ((update s dt rand).1.dots.getD q default).size = (s.dots.getD q default).size := by
  unfold update
  dsimp only
  have hd : (impulseDecay s dt).dots = s.dots := (impulseDecay_frame s dt).1
  have hm : ∀ r : ℕ, ((runMovement (impulseDecay s dt) dt).1.dots.getD r default).size
      = (s.dots.getD r default).size := by
    intro r
    rw [runMovement_dots_size, hd]
  split
  · exact hm q
  · exact (((resolveBattles_dots_phys _ _ _ _).2 q).2.2.2.2).trans (hm q)

/-! ### Claim C9 -/

/-- C9: for any controls value `c`, `setControls` replaces the controls
snapshot wholesale and leaves the agent list unchanged — the very same list,
hence the same count and identical position, velocity, size and group for
every agent. -/
theorem setControls_frame (s : SimState) (c : SimControls) :
    (setControls s c).controls = c ∧ (setControls s c).dots = s.dots ∧
    (setControls s c).dots.length = s.dots.length ∧
    ∀ i : ℕ, (setControls s c).dots.getD i default = s.dots.getD i default :=
  ⟨rfl, rfl, rfl, fun _ => rfl⟩

/-! ### Claim C3 -/

/-- C3 counterexample: changing the mode via `setControls` (battle radius 0 →
10, agent count 3) does not discard the single existing agent and does not
spawn a fresh population of the size the new controls request — the old agent
list survives unchanged. -/
theorem mode_switch_no_respawn_cex :
    capState.controls.battleRadius = 0 ∧ battleControls.battleRadius = 10 ∧
    (setControls capState battleControls).dots = [capDot] ∧
    (setControls capState battleControls).dots.length ≠ battleControls.count := by
  refine ⟨rfl, rfl, rfl, ?_⟩
  show [capDot].length ≠ battleControls.count
  simp [battleControls, cexControls]

/-- C3 (amended): the orchestrator never destroys or reconstructs a mode on a
controls change: `setControls` only swaps the controls snapshot, the agent
list carries over as-is, and the next `update` keeps the same population
(same agent count, same per-agent size) — the mode branch is chosen afresh
inside each tick from `battleRadius`. -/
theorem setControls_keeps_agents (s : SimState) (c : SimControls) (dt : ℝ)
    (rand : ℕ → ℝ) :
    (setControls s c).dots = s.dots ∧ (setControls s c).controls = c ∧
    (update (setControls s c) dt rand).1.dots.length = s.dots.length ∧
    ∀ q : ℕ, ((update (setControls s c) dt rand).1.dots.getD q default).size
      = (s.dots.getD q default).size :=
  ⟨rfl, rfl, update_dots_length _ _ _, fun q => update_dots_size _ _ _ q⟩

/-! ### Claim C7 -/

/-- C7: for a pair of agents at the exact same point (squared distance zero)
the neighbour-force computation contributes exactly zero for that pair: the
zero-distance guard fires before any direction is normalized, so no division
by the zero distance ever happens. -/
theorem pairAccel_zero_at_same_point (c : SimControls) (ir : ℝ) (d other : Dot)
    (hx : other.x = d.x) (hy : other.y = d.y) :
    pairAccel c ir d other = (0, 0) := by
  have h0 : (other.x - d.x) * (other.x - d.x) + (other.y - d.y) * (other.y - d.y) = (0 : ℝ) := by
    rw [hx, hy]; ring
  unfold pairAccel
  dsimp only
  rw [if_pos (Or.inl h0)]

/-- Witness for C7 at a concrete coincident pair. -/
theorem pairAccel_zero_at_same_point_witness :
    pairAccel cexControls 30 bDot0 bDot1 = (0, 0) :=
  pairAccel_zero_at_same_point cexControls 30 bDot0 bDot1 rfl rfl

/-! ### Claim C5 -/

theorem pairAccel_radial (c : SimControls) (ir : ℝ) (d other : Dot)
    (hmag : 0 ≤ c.magnetStrength) (hsz : 0 ≤ other.size) (hmax : 0 < c.maxSize)
    (hir : 0 ≤ ir) :
    ∃ t : ℝ, 0 ≤ t ∧
      (pairAccel c ir d other).1 * (other.x - d.x) +
        (pairAccel c ir d other).2 * (other.y - d.y)
      = t * battleSign c.repelAll d.faction other.faction := by
  unfold pairAccel
  dsimp only
  split
  · exact ⟨0, le_refl 0, by ring⟩
  · next hg =>
    push_neg at hg
    obtain ⟨hne, hle⟩ := hg
    set dx := other.x - d.x with hdx
    set dy := other.y - d.y with hdy
    set sf := other.size / c.maxSize with hsf
    set effR := ir * (0.6 + sf) with heffR
    have hsf0 : 0 ≤ sf := div_nonneg hsz (le_of_lt hmax)
    have heffR0 : 0 ≤ effR := mul_nonneg hir (by linarith)
    have hdist0 : 0 ≤ Real.sqrt (dx * dx + dy * dy) := Real.sqrt_nonneg _
    have hdistle : Real.sqrt (dx * dx + dy * dy) ≤ effR := by
      calc Real.sqrt (dx * dx + dy * dy) ≤ Real.sqrt (effR * effR) :=
            Real.sqrt_le_sqrt hle
        _ = effR := Real.sqrt_mul_self heffR0
    have hfall : 0 ≤ 1 - Real.sqrt (dx * dx + dy * dy) / effR := by
      rcases eq_or_lt_of_le heffR0 with h0 | h0
      · rw [← h0, div_zero]; norm_num
      · have : Real.sqrt (dx * dx + dy * dy) / effR ≤ 1 :=
          (div_le_one h0).mpr hdistle
        linarith
    have hforce : 0 ≤ c.magnetStrength / 100 * (1 - Real.sqrt (dx * dx + dy * dy) / effR)
        * (0.5 + sf * sf) := by
      refine mul_nonneg (mul_nonneg (div_nonneg hmag (by norm_num)) hfall) ?_
      nlinarith [mul_self_nonneg sf]
    refine ⟨c.magnetStrength / 100 * (1 - Real.sqrt (dx * dx + dy * dy) / effR)
      * (0.5 + sf * sf) * ((dx * dx + dy * dy) / Real.sqrt (dx * dx + dy * dy)), ?_, ?_⟩
    · have hq : 0 ≤ dx * dx + dy * dy :=
        add_nonneg (mul_self_nonneg dx) (mul_self_nonneg dy)
      exact mul_nonneg hforce (div_nonneg hq hdist0)
    · ring

/-- C5: in the neighbour-force pass the force sign is `-1` for same-group
neighbours and `+1` for different-group neighbours, and with `repelAll` set it
is `-1` for every neighbour; consequently the force's component along the
direction towards the neighbour is never positive for a same-group (or
`repelAll`) pair — repulsion — and never negative for a different-group pair —
attraction. -/
theorem neighbor_force_sign :
    (∀ fd fo : ℕ, battleSign true fd fo = -1) ∧
    (∀ fd fo : ℕ, fo = fd → battleSign false fd fo = -1) ∧
    (∀ fd fo : ℕ, fo ≠ fd → battleSign false fd fo = 1) ∧
    ∀ (c : SimControls) (ir : ℝ) (d other : Dot),
      0 ≤ c.magnetStrength → 0 ≤ other.size → 0 < c.maxSize → 0 ≤ ir →
      ((c.repelAll = true ∨ other.faction = d.faction) →
        (pairAccel c ir d other).1 * (other.x - d.x) +
          (pairAccel c ir d other).2 * (other.y - d.y) ≤ 0) ∧
      (c.repelAll = false → other.faction ≠ d.faction →
        0 ≤ (pairAccel c ir d other).1 * (other.x - d.x) +
          (pairAccel c ir d other).2 * (other.y - d.y)) := by
  refine ⟨fun fd fo => rfl, fun fd fo h => by simp [battleSign, h],
    fun fd fo h => by simp [battleSign, h], ?_⟩
  intro c ir d other hmag hsz hmax hir
  obtain ⟨t, ht0, ht⟩ := pairAccel_radial c ir d other hmag hsz hmax hir
  constructor
  · intro hcase
    rw [ht]
    have hsign : battleSign c.repelAll d.faction other.faction = -1 := by
      rcases hcase with h | h
      · simp [battleSign, h]
      · cases hr : c.repelAll <;> simp [battleSign, h]
    rw [hsign]
    linarith
  · intro hra hne
    rw [ht]
    have hsign : battleSign c.repelAll d.faction other.faction = 1 := by
      simp [battleSign, hra, hne]
    rw [hsign]
    linarith

/-- Witness for C5 at concrete groups and a concrete in-range pair. -/
theorem neighbor_force_sign_witness :
    battleSign false 0 1 = 1 ∧ battleSign false 2 2 = -1 ∧ battleSign true 0 1 = -1 :=
  ⟨neighbor_force_sign.2.2.1 0 1 (by decide), neighbor_force_sign.2.1 2 2 rfl,
    neighbor_force_sign.1 0 1⟩

/-! ### Claim C6 -/

/-- C6: a resolved battle draws `roll` uniformly over
`sizeA² + sizeB²` (the draw `r ∈ [0,1)` scaled by the total weight); `dot`
wins — the other agent's group is overwritten with `dot`'s group — exactly
when the roll falls below `sizeA²`, otherwise `dot`'s group is overwritten
with the other's; in both cases no other field of either agent changes. -/
theorem battle_outcome_spec (d other : Dot) (r : ℝ) (hf : d.faction ≠ other.faction) :
    ((battleOutcome d other r).2.faction = d.faction ↔
      r * (d.size * d.size + other.size * other.size) < d.size * d.size) ∧
    (r * (d.size * d.size + other.size * other.size) < d.size * d.size →
      (battleOutcome d other r).1 = d ∧
      physEq (battleOutcome d other r).2 other ∧
      (battleOutcome d other r).2.faction = d.faction) ∧
    (¬ r * (d.size * d.size + other.size * other.size) < d.size * d.size →
      (battleOutcome d other r).2 = other ∧
      physEq (battleOutcome d other r).1 d ∧
      (battleOutcome d other r).1.faction = other.faction) := by
  unfold battleOutcome
  dsimp only
  by_cases h : r * (d.size * d.size + other.size * other.size) < d.size * d.size
  · rw [if_pos h]
    exact ⟨by simp [h], fun _ => ⟨rfl, ⟨rfl, rfl, rfl, rfl, rfl⟩, rfl⟩, fun hc => absurd h hc⟩
  · rw [if_neg h]
    refine ⟨?_, fun hc => absurd hc h, fun _ => ⟨rfl, ⟨rfl, rfl, rfl, rfl, rfl⟩, rfl⟩⟩
    simp only [iff_false_intro h, iff_false]
    exact fun hc => hf (hc.symm)

/-- Witness for C6: equal-size different-group pair, draw `1/8`, so the roll
`1` beats the weight `4` and the second agent is converted to group `0`. -/
theorem battle_outcome_spec_witness :
    bDot0.faction ≠ bDot1.faction ∧
    (battleOutcome bDot0 bDot1 (1 / 8)).2.faction = bDot0.faction :=
  ⟨by decide,
    ((battle_outcome_spec bDot0 bDot1 (1 / 8) (by decide)).1).mpr
      (by norm_num [bDot0, bDot1])⟩

/-! ### Claim C8 -/

/-- C8: a zero-length palette degrades gracefully — `init` spawns an empty
agent list (no agent, hence no invalid group index), and `setPalette` with an
empty palette empties the agent list as well. -/
theorem empty_palette_spawns_none (s : SimState) (u : ℕ → ℝ) (palette : List ℕ)
    (h : palette.length = 0) :
    (initSim s palette u).dots = [] ∧ (setPalette s palette).dots = [] := by
  constructor
  · unfold initSim
    rw [if_pos h]
  · unfold setPalette
    rw [if_pos h]

/-- Witness for C8 with a concrete state and the empty palette. -/
theorem empty_palette_spawns_none_witness :
    (initSim capState [] fun _ => 0).dots = [] ∧ (setPalette capState []).dots = [] :=
  empty_palette_spawns_none capState (fun _ => 0) [] rfl

/-! ### Claim C10 -/

/-- C10: for a non-empty palette of `n` colours, `setPalette` keeps the agent
count and every agent's position, velocity and size, and replaces each
agent's group by `group mod n` — a valid index below `n`. -/
theorem setPalette_mod_faction (s : SimState) (colors : List ℕ) (h : colors ≠ []) :
    (setPalette s colors).dots.length = s.dots.length ∧
    ∀ i : ℕ, i < s.dots.length →
      physEq ((setPalette s colors).dots.getD i default) (s.dots.getD i default) ∧
      ((setPalette s colors).dots.getD i default).faction
        = (s.dots.getD i default).faction % colors.length ∧
      ((setPalette s colors).dots.getD i default).faction < colors.length := by
  have hlen : colors.length ≠ 0 := fun hc => h (List.length_eq_zero.mp hc)
  unfold setPalette
  rw [if_neg hlen]
  refine ⟨by simp, ?_⟩
  intro i hi
  have hmap : (s.dots.map fun d => { d with faction := d.faction % colors.length }).getD i default
      = { s.dots.getD i default with faction := (s.dots.getD i default).faction % colors.length } := by
    rw [List.getD_eq_getElem?_getD, List.getD_eq_getElem?_getD, List.getElem?_map,
      List.getElem?_eq_getElem hi]
    rfl
  dsimp only
  rw [hmap]
  exact ⟨⟨rfl, rfl, rfl, rfl, rfl⟩, rfl, Nat.mod_lt _ (Nat.pos_of_ne_zero hlen)⟩

/-- Witness for C10 on a concrete three-agent state and a palette of one
colour. -/
theorem setPalette_mod_faction_witness :
    ([5] : List ℕ) ≠ [] ∧ (setPalette battleState [5]).dots.length = battleState.dots.length :=
  ⟨by decide, (setPalette_mod_faction battleState [5] (by decide)).1⟩

/-! ### Claim C2 (amended part) -/

/-- C2 (amended): the mode's velocity cap is enforced at the clamp step —
immediately after `clampSpeed`, the squared velocity magnitude is at most
`3² = 9` — but the cap holds only at that point of the tick; the wall, mouse
and impulse forces applied later in the same tick may push the magnitude
beyond the cap again (see the counterexample). -/
theorem clampSpeed_within_cap (vx vy : ℝ) :
    (clampSpeed vx vy).1 * (clampSpeed vx vy).1 +
      (clampSpeed vx vy).2 * (clampSpeed vx vy).2 ≤ 3 * 3 := by
  unfold clampSpeed
  dsimp only
  split
  · next hgt =>
    have hnn : (0 : ℝ) ≤ vx * vx + vy * vy :=
      add_nonneg (mul_self_nonneg vx) (mul_self_nonneg vy)
    have hs : Real.sqrt (vx * vx + vy * vy) * Real.sqrt (vx * vx + vy * vy)
        = vx * vx + vy * vy := Real.mul_self_sqrt hnn
    set sp := Real.sqrt (vx * vx + vy * vy) with hsp
    have hpos : (0 : ℝ) < sp := by linarith
    have hq : (0 : ℝ) < vx * vx + vy * vy := by nlinarith
    have key : vx / sp * 3 * (vx / sp * 3) + vy / sp * 3 * (vy / sp * 3)
        = (vx * vx + vy * vy) * 9 / (sp * sp) := by
      field_simp
      ring
    rw [key, hs, mul_comm, mul_div_assoc, div_self (ne_of_gt hq), mul_one]
    norm_num
  · next hle =>
    push_neg at hle
    have hnn : (0 : ℝ) ≤ vx * vx + vy * vy :=
      add_nonneg (mul_self_nonneg vx) (mul_self_nonneg vy)
    have hs : Real.sqrt (vx * vx + vy * vy) * Real.sqrt (vx * vx + vy * vy)
        = vx * vx + vy * vy := Real.mul_self_sqrt hnn
    have h0 : (0 : ℝ) ≤ Real.sqrt (vx * vx + vy * vy) := Real.sqrt_nonneg _
    nlinarith

/-! ### Claim C4 -/

theorem inpad_of_physEq {W H : ℝ} {a b : Dot} (h : physEq a b) (hb : InPad W H b) :
    InPad W H a := by
  obtain ⟨hx, hy, -, -, hs⟩ := h
  obtain ⟨h1, h2, h3, h4⟩ := hb
  exact ⟨by rw [hx, hs]; exact h1, by rw [hx, hs]; exact h2,
    by rw [hy, hs]; exact h3, by rw [hy, hs]; exact h4⟩

theorem wallIntegrate_inpad (W H : ℝ) (c : SimControls) (ir dt : ℝ) (d : Dot) (v : ℝ × ℝ)
    (hx : padLeft + d.size ≤ W - padRight - d.size)
    (hy : padTop + d.size ≤ H - padBottom - d.size) :
    InPad W H (wallIntegrate W H c ir dt d v) := by
  unfold wallIntegrate InPad
  dsimp only
  exact ⟨le_max_left _ _, max_le hx (min_le_left _ _),
    le_max_left _ _, max_le hy (min_le_left _ _)⟩

theorem moveDot_inpad (s : SimState) (grid : ℤ × ℤ → List ℕ) (cols rows : ℤ)
    (cellSize ir dt : ℝ) (ds : List Dot) (i : ℕ)
    (hx : padLeft + (ds.getD i default).size
      ≤ s.viewWidth - padRight - (ds.getD i default).size)
    (hy : padTop + (ds.getD i default).size
      ≤ s.viewHeight - padBottom - (ds.getD i default).size) :
    InPad s.viewWidth s.viewHeight (moveDot s grid cols rows cellSize ir dt ds i) :=
  wallIntegrate_inpad _ _ _ _ _ _ _ hx hy

theorem fold_move_inpad (s : SimState) (grid : ℤ × ℤ → List ℕ) (cols rows : ℤ)
    (cellSize ir dt : ℝ)
    (hsane : ∀ q : ℕ, q < s.dots.length →
      SaneFor s.viewWidth s.viewHeight (s.dots.getD q default)) :
    ∀ (l : List ℕ) (ds : List Dot),
      ds.length = s.dots.length →
      (∀ r : ℕ, (ds.getD r default).size = (s.dots.getD r default).size) →
      ∀ q : ℕ, q < s.dots.length →
        (q ∈ l ∨ InPad s.viewWidth s.viewHeight (ds.getD q default)) →
        InPad s.viewWidth s.viewHeight
          ((l.foldl (fun ds i => ds.set i (moveDot s grid cols rows cellSize ir dt ds i))
            ds).getD q default) := by
  intro l
  induction l with
  | nil =>
    intro ds hlen hsize q hq hcase
    rcases hcase with h | h
    · exact absurd h (List.not_mem_nil q)
    · exact h
  | cons a t ih =>
    intro ds hlen hsize q hq hcase
    rw [List.foldl_cons]
    have hstep_inpad : a < ds.length →
        InPad s.viewWidth s.viewHeight (moveDot s grid cols rows cellSize ir dt ds a) := by
      intro ha
      have han : a < s.dots.length := hlen ▸ ha
      refine moveDot_inpad s grid cols rows cellSize ir dt ds a ?_ ?_
      · rw [hsize a]; exact (hsane a han).1
      · rw [hsize a]; exact (hsane a han).2
    refine ih (ds.set a (moveDot s grid cols rows cellSize ir dt ds a)) ?_ ?_ q hq ?_
    · rw [List.length_set]; exact hlen
    · intro r
      rw [getD_set]
      split
      · next hc => rw [moveDot_size]; exact (hsize a).trans (by rw [hc.1])
      · exact hsize r
    · by_cases hqa : a = q ∧ q < ds.length
      · right
        rw [getD_set, if_pos hqa]
        exact hstep_inpad (hqa.1 ▸ hqa.2)
      · rcases hcase with hmem | hpad
        · rcases List.mem_cons.mp hmem with rfl | hmem'
          · exact absurd ⟨rfl, hlen ▸ hq⟩ hqa
          · exact Or.inl hmem'
        · right
          rw [getD_set, if_neg hqa]
          exact hpad

theorem runMovement_inpad (s : SimState) (dt : ℝ)
    (hsane : ∀ d ∈ s.dots, SaneFor s.viewWidth s.viewHeight d) :
    ∀ q : ℕ, q < s.dots.length →
      InPad s.viewWidth s.viewHeight ((runMovement s dt).1.dots.getD q default) := by
  intro q hq
  have hsane' : ∀ r : ℕ, r < s.dots.length →
      SaneFor s.viewWidth s.viewHeight (s.dots.getD r default) := by
    intro r hr
    have : s.dots.getD r default ∈ s.dots := by
      rw [List.getD_eq_getElem?_getD, List.getElem?_eq_getElem hr]
      exact List.getElem_mem hr
    exact hsane _ this
  unfold runMovement
  dsimp only
  exact fold_move_inpad s _ _ _ _ _ _ hsane' (List.range s.dots.length) s.dots rfl
    (fun r => rfl) q hq (Or.inl (List.mem_range.mpr hq))

theorem update_inpad (s : SimState) (dt : ℝ) (rand : ℕ → ℝ)
    (hsane : ∀ d ∈ s.dots, SaneFor s.viewWidth s.viewHeight d) :
    ∀ q : ℕ, q < s.dots.length →
      InPad s.viewWidth s.viewHeight ((update s dt rand).1.dots.getD q default) := by
  intro q hq
  have hd : (impulseDecay s dt).dots = s.dots := (impulseDecay_frame s dt).1
  obtain ⟨hw, hh, -, -⟩ := impulseDecay_frame s dt |>.2
  have hsane1 : ∀ d ∈ (impulseDecay s dt).dots,
      SaneFor (impulseDecay s dt).viewWidth (impulseDecay s dt).viewHeight d := by
    rw [hd, hw, hh]; exact hsane
  have hq1 : q < (impulseDecay s dt).dots.length := by rw [hd]; exact hq
  have hmove := runMovement_inpad (impulseDecay s dt) dt hsane1 q hq1
  rw [hw, hh] at hmove
  unfold update
  dsimp only
  split
  · exact hmove
  · have hphys := (resolveBattles_dots_phys (runMovement (impulseDecay s dt) dt).1
      (runMovement (impulseDecay s dt) dt).2 s.controls.battleRadius rand).2 q
    exact inpad_of_physEq hphys hmove

theorem update_sane (s : SimState) (dt : ℝ) (rand : ℕ → ℝ)
    (hsane : ∀ d ∈ s.dots, SaneFor s.viewWidth s.viewHeight d) :
    ∀ d' ∈ (update s dt rand).1.dots, SaneFor s.viewWidth s.viewHeight d' := by
  intro d' hd'
  obtain ⟨q, hq, hEq⟩ := List.mem_iff_getElem.mp hd'
  have hq' : q < s.dots.length := by rw [← update_dots_length s dt rand]; exact hq
  have hgd : (update s dt rand).1.dots.getD q default = d' := by
    rw [List.getD_eq_getElem?_getD, List.getElem?_eq_getElem hq, Option.getD_some, hEq]
  have hsz : d'.size = (s.dots.getD q default).size := by
    rw [← hgd, update_dots_size]
  have horig : s.dots.getD q default ∈ s.dots := by
    rw [List.getD_eq_getElem?_getD, List.getElem?_eq_getElem hq']
    exact List.getElem_mem hq'
  obtain ⟨h1, h2⟩ := hsane _ horig
  exact ⟨by rw [hsz]; exact h1, by rw [hsz]; exact h2⟩

theorem iter_frame (s : SimState) (dt : ℝ) (rand : ℕ → ℝ) (n : ℕ) :
    (iterUpdate s dt rand n).viewWidth = s.viewWidth ∧
    (iterUpdate s dt rand n).viewHeight = s.viewHeight := by
  induction n with
  | zero => exact ⟨rfl, rfl⟩
  | succ m ih =>
    obtain ⟨hw, hh, -⟩ := update_frame (iterUpdate s dt rand m) dt rand
    exact ⟨hw.trans ih.1, hh.trans ih.2⟩

theorem iter_sane (s : SimState) (dt : ℝ) (rand : ℕ → ℝ) (n : ℕ)
    (hsane : ∀ d ∈ s.dots, SaneFor s.viewWidth s.viewHeight d) :
    ∀ d' ∈ (iterUpdate s dt rand n).dots, SaneFor s.viewWidth s.viewHeight d' := by
  induction n with
  | zero => exact hsane
  | succ m ih =>
    obtain ⟨hw, hh⟩ := iter_frame s dt rand m
    have := update_sane (iterUpdate s dt rand m) dt rand (by rw [hw, hh]; exact ih)
    rw [hw, hh] at this
    exact this

/-- C4: for every agent, after the wall-resolution step that ends a tick its
position lies within `[radius, dimension - radius]` on both axes, and after
any positive number of ticks no agent position lies outside the arena —
provided the arena is large enough to contain each agent with the wall
padding (`SaneFor`). -/
theorem tick_positions_within_bounds (s : SimState) (dt : ℝ) (rand : ℕ → ℝ) (n : ℕ)
    (hn : 1 ≤ n) (hsane : ∀ d ∈ s.dots, SaneFor s.viewWidth s.viewHeight d) :
    ∀ d' ∈ (iterUpdate s dt rand n).dots,
      d'.size ≤ d'.x ∧ d'.x ≤ s.viewWidth - d'.size ∧
      d'.size ≤ d'.y ∧ d'.y ≤ s.viewHeight - d'.size := by
  obtain ⟨m, rfl⟩ : ∃ m, n = m + 1 := ⟨n - 1, (Nat.succ_pred_eq_of_pos hn).symm⟩
  intro d' hd'
  obtain ⟨hw, hh⟩ := iter_frame s dt rand m
  have hsane' : ∀ d ∈ (iterUpdate s dt rand m).dots,
      SaneFor (iterUpdate s dt rand m).viewWidth (iterUpdate s dt rand m).viewHeight d := by
    rw [hw, hh]; exact iter_sane s dt rand m hsane
  obtain ⟨q, hq, hEq⟩ := List.mem_iff_getElem.mp hd'
  have hq' : q < (iterUpdate s dt rand m).dots.length := by
    rw [← update_dots_length (iterUpdate s dt rand m) dt rand]; exact hq
  have hq2 : q < (update (iterUpdate s dt rand m) dt rand).1.dots.length := hq
  have hgd : (update (iterUpdate s dt rand m) dt rand).1.dots.getD q default = d' := by
    rw [List.getD_eq_getElem?_getD, List.getElem?_eq_getElem hq2, Option.getD_some]
    exact hEq
  have hpad := update_inpad (iterUpdate s dt rand m) dt rand hsane' q hq'
  rw [hw, hh] at hpad
  show d'.size ≤ d'.x ∧ d'.x ≤ s.viewWidth - d'.size ∧
      d'.size ≤ d'.y ∧ d'.y ≤ s.viewHeight - d'.size
  have hpad' : InPad s.viewWidth s.viewHeight d' := by
    rw [show (iterUpdate s dt rand (m + 1)) = (update (iterUpdate s dt rand m) dt rand).1 from rfl]
      at hd'
    rw [← hgd]
    exact hpad
  obtain ⟨h1, h2, h3, h4⟩ := hpad'
  have hl : padLeft = (12 : ℝ) := rfl
  have hr : padRight = (12 : ℝ) := rfl
  have ht : padTop = (12 : ℝ) := rfl
  have hb : padBottom = (20 : ℝ) := rfl
  rw [hl] at h1
  rw [hr] at h2
  rw [ht] at h3
  rw [hb] at h4
  exact ⟨by linarith, by linarith, by linarith, by linarith⟩

/-- Witness for C4: one tick of the concrete single-dot 60 × 60 state. -/
theorem tick_positions_within_bounds_witness :
    (1 ≤ 1 ∧ ∀ d ∈ capState.dots, SaneFor capState.viewWidth capState.viewHeight d) ∧
    ∀ d' ∈ (iterUpdate capState 1 (fun _ => 0) 1).dots,
      d'.size ≤ d'.x ∧ d'.x ≤ capState.viewWidth - d'.size ∧
      d'.size ≤ d'.y ∧ d'.y ≤ capState.viewHeight - d'.size := by
  have hs : ∀ d ∈ capState.dots, SaneFor capState.viewWidth capState.viewHeight d := by
    intro d hd
    have : d = capDot := by
      simpa [capState] using hd
    subst this
    constructor <;> norm_num [SaneFor, capState, capDot, padLeft, padRight, padTop, padBottom]
  exact ⟨⟨le_rfl, hs⟩, tick_positions_within_bounds capState 1 (fun _ => 0) 1 le_rfl hs⟩

/-! ### Claim C1 (amended part) -/

theorem buildGrid_mem (cols rows : ℤ) (cellSize : ℝ) (dots : List Dot) (c : ℤ × ℤ)
    (j : ℕ) (h : j ∈ buildGrid cols rows cellSize dots c) : j < dots.length := by
  unfold buildGrid at h
  have key : ∀ (l : List ℕ) (g : ℤ × ℤ → List ℕ),
      (∀ c' j', j' ∈ g c' → j' < dots.length) →
      (∀ i ∈ l, i < dots.length) →
      ∀ c' j', j' ∈ (l.foldl
        (fun g i c' =>
          if c' = cellOf cols rows cellSize (dots.getD i default) then g c' ++ [i] else g c')
        g) c' → j' < dots.length := by
    intro l
    induction l with
    | nil => exact fun g hg _ c' j' hj => hg c' j' hj
    | cons a t ih =>
      intro g hg hl c' j' hj
      rw [List.foldl_cons] at hj
      refine ih _ ?_ (fun i hi => hl i (List.mem_cons_of_mem a hi)) c' j' hj
      intro c'' j'' hj''
      by_cases hc : c'' = cellOf cols rows cellSize (dots.getD a default)
      · rw [if_pos hc] at hj''
        rcases List.mem_append.mp hj'' with h' | h'
        · exact hg _ _ h'
        · rw [List.mem_singleton] at h'
          rw [h']
          exact hl a (List.mem_cons_self a t)
      · rw [if_neg hc] at hj''
        exact hg _ _ hj''
  exact key (List.range dots.length) _ (fun c' j' hj => absurd hj (List.not_mem_nil _))
    (fun i hi => List.mem_range.mp hi) c j h

theorem battleEncounters_mem (grid : ℤ × ℤ → List ℕ) (cols rows : ℤ) (n : ℕ)
    (hg : ∀ c j, j ∈ grid c → j < n) (p : ℕ × ℕ)
    (hp : p ∈ battleEncounters grid cols rows) : p.1 < n ∧ p.2 < n := by
  unfold battleEncounters at hp
  simp only [List.mem_flatMap] at hp
  obtain ⟨cy, -, cx, -, i, hi, o, -, hp⟩ := hp
  split at hp
  · exact absurd hp (List.not_mem_nil p)
  · obtain ⟨j, hj, hji⟩ := List.mem_map.mp hp
    subst hji
    exact ⟨hg _ _ hi, hg _ _ hj⟩

theorem battleOutcome_faction_eq (d other : Dot) (r : ℝ) :
    (battleOutcome d other r).1.faction = (battleOutcome d other r).2.faction := by
  unfold battleOutcome
  dsimp only
  split
  · rfl
  · rfl

theorem two_dot_fold_inv (brSq : ℝ) (rand : ℕ → ℝ) :
    ∀ (l : List (ℕ × ℕ)) (b : BState),
      (∀ p ∈ l, p.1 < 2 ∧ p.2 < 2) →
      b.dots.length = 2 →
      b.events.length ≤ 1 →
      (b.events ≠ [] →
        (b.dots.getD 0 default).faction = (b.dots.getD 1 default).faction) →
      (l.foldl (battleStep brSq rand) b).events.length ≤ 1 := by
  intro l
  induction l with
  | nil => exact fun b _ _ h _ => h
  | cons p t ih =>
    intro b hl hlen hev hfac
    rw [List.foldl_cons]
    obtain ⟨hp1, hp2⟩ := hl p (List.mem_cons_self p t)
    have hl' : ∀ q ∈ t, q.1 < 2 ∧ q.2 < 2 := fun q hq => hl q (List.mem_cons_of_mem p hq)
    by_cases hskip : p.2 = p.1 ∨
        (b.dots.getD p.2 default).faction = (b.dots.getD p.1 default).faction
    · have hb : battleStep brSq rand b p = b := by
        unfold battleStep
        dsimp only
        rw [if_pos hskip]
      rw [hb]
      exact ih b hl' hlen hev hfac
    · push_neg at hskip
      obtain ⟨hne, hfne⟩ := hskip
      -- the factions at p.1 and p.2 differ, so no contest has happened yet
      have hevnil : b.events = [] := by
        by_contra hcon
        have heq := hfac hcon
        have : (p.1 = 0 ∧ p.2 = 1) ∨ (p.1 = 1 ∧ p.2 = 0) := by omega
        rcases this with ⟨h1, h2⟩ | ⟨h1, h2⟩
        · rw [h1, h2] at hfne
          exact hfne heq.symm
        · rw [h1, h2] at hfne
          exact hfne heq
      by_cases hdist : ((b.dots.getD p.2 default).x - (b.dots.getD p.1 default).x) *
            ((b.dots.getD p.2 default).x - (b.dots.getD p.1 default).x) +
          ((b.dots.getD p.2 default).y - (b.dots.getD p.1 default).y) *
            ((b.dots.getD p.2 default).y - (b.dots.getD p.1 default).y) ≤ brSq
      · -- the contest fires: it is the single contest of the tick
        have hb : battleStep brSq rand b p =
            { dots := (b.dots.set p.1
                (battleOutcome (b.dots.getD p.1 default) (b.dots.getD p.2 default)
                  (rand b.k)).1).set p.2
                (battleOutcome (b.dots.getD p.1 default) (b.dots.getD p.2 default)
                  (rand b.k)).2,
              k := b.k + 1, events := b.events ++ [(p.1, p.2)] } := by
          unfold battleStep
          dsimp only
          rw [if_neg (by push_neg; exact ⟨hne, hfne⟩), if_pos hdist]
        rw [hb]
        set out := battleOutcome (b.dots.getD p.1 default) (b.dots.getD p.2 default)
          (rand b.k) with hout
        have hlen1 : ((b.dots.set p.1 out.1).set p.2 out.2).length = 2 := by
          rw [List.length_set, List.length_set]
          exact hlen
        have hg2 : ((b.dots.set p.1 out.1).set p.2 out.2).getD p.2 default = out.2 := by
          rw [getD_set, if_pos ⟨rfl, by rw [List.length_set, hlen]; exact hp2⟩]
        have hg1 : ((b.dots.set p.1 out.1).set p.2 out.2).getD p.1 default = out.1 := by
          rw [getD_set, if_neg (fun hc => hne hc.1), getD_set,
            if_pos ⟨rfl, by rw [hlen]; exact hp1⟩]
        refine ih _ hl' hlen1 ?_ ?_
        · rw [List.length_append, hevnil]
          norm_num
        · intro _
          dsimp only
          have : (p.1 = 0 ∧ p.2 = 1) ∨ (p.1 = 1 ∧ p.2 = 0) := by omega
          rcases this with ⟨h1, h2⟩ | ⟨h1, h2⟩
          · rw [← h1, ← h2, hg1, hg2]
            exact battleOutcome_faction_eq _ _ _
          · rw [← h2, ← h1, hg1, hg2]
            exact (battleOutcome_faction_eq _ _ _).symm
      · have hb : battleStep brSq rand b p = b := by
          unfold battleStep
          dsimp only
          rw [if_neg (by push_neg; exact ⟨hne, hfne⟩), if_neg hdist]
        rw [hb]
        exact ih b hl' hlen hev hfac

/-- C1 (amended): within one tick, a pair of different-group agents can be
the subject of more than one conversion contest when intervening contests
with a third agent make the pair's groups differ again between encounters
(see the counterexample); what does hold is that a battle contest only fires
for a pair whose groups differ at encounter time — so when only the two
agents exist, the tick executes at most one contest in total (the first
contest equalizes the two groups and every later encounter of the pair is
skipped), and in particular every unordered pair is resolved at most once. -/
theorem battle_pair_single_resolution_two_dots (s : SimState) (dt : ℝ) (rand : ℕ → ℝ)
    (hlen : s.dots.length = 2) :
    (update s dt rand).2.length ≤ 1 ∧
    ∀ i j : ℕ, countPair ((update s dt rand).2) i j ≤ 1 := by
  have hmain : (update s dt rand).2.length ≤ 1 := by
    unfold update
    dsimp only
    split
    · norm_num
    · have hd : (impulseDecay s dt).dots = s.dots := (impulseDecay_frame s dt).1
      have hmlen : (runMovement (impulseDecay s dt) dt).1.dots.length = 2 := by
        rw [runMovement_dots_length, hd, hlen]
      have hgrid : ∀ c j, j ∈ (runMovement (impulseDecay s dt) dt).2 c → j < 2 := by
        intro c j hj
        have := buildGrid_mem _ _ _ _ _ _ hj
        rw [hd, hlen] at this
        exact this
      unfold resolveBattles
      dsimp only
      apply two_dot_fold_inv
      · intro p hp
        exact battleEncounters_mem _ _ _ 2 hgrid p hp
      · exact hmlen
      · norm_num
      · intro hcon
        exact absurd rfl hcon
  refine ⟨hmain, fun i j => ?_⟩
  exact le_trans (List.length_filter_le _ _) hmain

/-- Witness for C1 (amended) on a concrete two-dot battle-mode state. -/
theorem battle_pair_single_resolution_two_dots_witness :
    ({ battleState with dots := [bDot0, bDot1] } : SimState).dots.length = 2 ∧
    (update { battleState with dots := [bDot0, bDot1] } 1 battleRand).2.length ≤ 1 :=
  ⟨rfl, (battle_pair_single_resolution_two_dots
    { battleState with dots := [bDot0, bDot1] } 1 battleRand rfl).1⟩

/-! ### Claim C2 (counterexample part): concrete evaluation of one tick -/

theorem sqrt_nine : Real.sqrt 9 = 3 := by
  rw [show (9 : ℝ) = 3 ^ 2 by norm_num]
  exact Real.sqrt_sq (by norm_num)

theorem capGrid_eval (c : ℤ × ℤ) :
    buildGrid 2 2 30 [capDot] c = if c = (0, 0) then [0] else [] := by
  have hcell : cellOf 2 2 30 capDot = (0, 0) := by
    unfold cellOf
    have hfx : (⌊capDot.x / 30⌋ : ℤ) = 0 := by norm_num [capDot]
    have hfy : (⌊capDot.y / 30⌋ : ℤ) = 0 := by norm_num [capDot]
    rw [hfx, hfy]
    decide
  unfold buildGrid
  simp [List.range_succ, hcell]

theorem capAccel_eval :
    neighborAccel capState.controls (buildGrid 2 2 30 [capDot]) 2 2 30 30 [capDot] 0
      = (0, 0) := by
  unfold neighborAccel
  dsimp only
  have hfx : (⌊([capDot].getD 0 default).x / 30⌋ : ℤ) = 0 := by norm_num [capDot]
  have hfy : (⌊([capDot].getD 0 default).y / 30⌋ : ℤ) = 0 := by norm_num [capDot]
  rw [hfx, hfy]
  norm_num [offsets, capGrid_eval, Prod.ext_iff]

theorem capClamp_eval : clampSpeed 3 0 = (3, 0) := by
  unfold clampSpeed
  dsimp only
  have h9 : Real.sqrt (3 * 3 + 0 * 0) = 3 := by
    rw [show (3 : ℝ) * 3 + 0 * 0 = 9 by norm_num]
    exact sqrt_nine
  rw [h9, if_neg (lt_irrefl 3)]

theorem capWall_eval :
    wallIntegrate 60 60 capState.controls 30 1 capDot (3, 0)
      = { x := 15, y := 15, vx := 3.38, vy := 0.38, size := 2, faction := 0 } := by
  unfold wallIntegrate
  dsimp only
  have hwr : max (20 : ℝ) (30 * 0.5) = 20 := by norm_num
  rw [hwr]
  norm_num [capState, cexControls, capDot, padLeft, padRight, padTop, padBottom,
    min_def, max_def, Dot.mk.injEq]

theorem capMove_eval :
    moveDot capState (buildGrid 2 2 30 [capDot]) 2 2 30 30 1 [capDot] 0
      = { x := 15, y := 15, vx := 3.38, vy := 0.38, size := 2, faction := 0 } := by
  unfold moveDot
  dsimp only
  rw [capAccel_eval]
  have hv1 : ((([capDot].getD 0 default).vx + (0 : ℝ) * 1,
      (([capDot].getD 0 default).vy + (0 : ℝ) * 1)) : ℝ × ℝ) = ((3 : ℝ), (0 : ℝ)) := by
    norm_num [capDot]
  rw [show (([capDot].getD 0 default).vx + ((0:ℝ),(0:ℝ)).1 * 1) = (3:ℝ) by norm_num [capDot],
    show (([capDot].getD 0 default).vy + ((0:ℝ),(0:ℝ)).2 * 1) = (0:ℝ) by norm_num [capDot],
    capClamp_eval]
  have hmouse : mouseForce capState.mouse capState.controls 1 ([capDot].getD 0 default) (3, 0)
      = (3, 0) := by
    unfold mouseForce
    rw [if_neg]
    intro hcon
    have : capState.mouse.active = true := hcon.1
    simp [capState, idleMouse] at this
  have himp : impulseForce capState.clickImpulse 1 ([capDot].getD 0 default) (3, 0)
      = (3, 0) := rfl
  rw [hmouse, himp]
  have hd : ([capDot].getD 0 default) = capDot := rfl
  rw [hd]
  have hW : capState.viewWidth = 60 := rfl
  have hH : capState.viewHeight = 60 := rfl
  rw [hW, hH]
  exact capWall_eval

theorem capRun_eval :
    (runMovement capState 1).1.dots
      = [{ x := 15, y := 15, vx := 3.38, vy := 0.38, size := 2, faction := 0 }] := by
  unfold runMovement
  dsimp only
  have hIRc : influenceRadiusOf capState.controls = 30 := by
    norm_num [influenceRadiusOf, capState, cexControls]
  have hCS : max (8 : ℝ) (influenceRadiusOf capState.controls) = 30 := by
    rw [hIRc]; norm_num
  have hW : capState.viewWidth = 60 := rfl
  have hH : capState.viewHeight = 60 := rfl
  have hCols : (⌈capState.viewWidth / max (8 : ℝ) (influenceRadiusOf capState.controls)⌉ : ℤ)
      = 2 := by
    rw [hCS, hW, show (60 : ℝ) / 30 = 2 by norm_num]
    norm_num
  have hRows : (⌈capState.viewHeight / max (8 : ℝ) (influenceRadiusOf capState.controls)⌉ : ℤ)
      = 2 := by
    rw [hCS, hH, show (60 : ℝ) / 30 = 2 by norm_num]
    norm_num
  rw [hCols, hRows, hCS, hIRc]
  have hdots : capState.dots = [capDot] := rfl
  rw [hdots]
  simp only [List.length_singleton, List.range_succ, List.range_zero, List.nil_append,
    List.foldl_cons, List.foldl_nil]
  rw [capMove_eval]
  rfl

/-- C2 counterexample: one complete tick of `update` on the concrete one-dot
state leaves the dot with velocity `(3.38, 0.38)` — squared magnitude
`11.5688 > 9` — because the wall force is applied after the speed clamp. -/
theorem tick_speed_exceeds_cap_cex :
    ((update capState 1 fun _ => 0).1.dots.getD 0 default).vx *
        ((update capState 1 fun _ => 0).1.dots.getD 0 default).vx +
      ((update capState 1 fun _ => 0).1.dots.getD 0 default).vy *
        ((update capState 1 fun _ => 0).1.dots.getD 0 default).vy > 3 * 3 := by
  have hbr : capState.controls.battleRadius ≤ 0 := le_of_eq rfl
  have hdec : impulseDecay capState 1 = capState := rfl
  have hupd : (update capState 1 fun _ => 0).1 = (runMovement capState 1).1 := by
    unfold update
    dsimp only
    rw [hdec, if_pos hbr]
  rw [hupd]
  have := capRun_eval
  rw [this]
  norm_num

/-! ### Claim C1 (counterexample part): concrete evaluation of one battle tick -/

theorem b3Grid_eval (c : ℤ × ℤ) :
    buildGrid 1 2 30 [bDot0, bDot1, bDot2] c = if c = (0, 0) then [0, 1, 2] else [] := by
  have hcell0 : cellOf 1 2 30 bDot0 = (0, 0) := by
    unfold cellOf
    have hfx : (⌊bDot0.x / 30⌋ : ℤ) = 0 := by norm_num [bDot0]
    have hfy : (⌊bDot0.y / 30⌋ : ℤ) = 0 := by norm_num [bDot0]
    rw [hfx, hfy]
    decide
  have hcell1 : cellOf 1 2 30 bDot1 = (0, 0) := by
    unfold cellOf
    have hfx : (⌊bDot1.x / 30⌋ : ℤ) = 0 := by norm_num [bDot1, bDot0]
    have hfy : (⌊bDot1.y / 30⌋ : ℤ) = 0 := by norm_num [bDot1, bDot0]
    rw [hfx, hfy]
    decide
  have hcell2 : cellOf 1 2 30 bDot2 = (0, 0) := by
    unfold cellOf
    have hfx : (⌊bDot2.x / 30⌋ : ℤ) = 0 := by norm_num [bDot2, bDot0]
    have hfy : (⌊bDot2.y / 30⌋ : ℤ) = 0 := by norm_num [bDot2, bDot0]
    rw [hfx, hfy]
    decide
  unfold buildGrid
  simp only [List.length_cons, List.length_nil, List.range_succ, List.range_zero,
    List.nil_append, List.cons_append, List.foldl_cons, List.foldl_nil,
    List.getD_cons_zero, List.getD_cons_succ]
  rw [hcell0, hcell1, hcell2]
  by_cases hc : c = ((0 : ℤ), (0 : ℤ))
  · rw [if_pos hc, if_pos hc, if_pos hc, if_pos hc]
    decide
  · rw [if_neg hc, if_neg hc, if_neg hc, if_neg hc]

theorem pairAccel_coincident (c : SimControls) (ir : ℝ) (d other : Dot)
    (hx : other.x = d.x) (hy : other.y = d.y) :
    pairAccel c ir d other = (0, 0) := by
  have h0 : (other.x - d.x) * (other.x - d.x) + (other.y - d.y) * (other.y - d.y) = (0 : ℝ) := by
    rw [hx, hy]; ring
  unfold pairAccel
  dsimp only
  rw [if_pos (Or.inl h0)]

theorem b3Accel_eval (i : ℕ) (hi : i < 3) :
    neighborAccel battleState.controls (buildGrid 1 2 30 [bDot0, bDot1, bDot2]) 1 2 30 30
      [bDot0, bDot1, bDot2] i = (0, 0) := by
  have hp01 : pairAccel battleState.controls 30 bDot0 bDot1 = (0, 0) :=
    pairAccel_coincident _ _ _ _ rfl rfl
  have hp02 : pairAccel battleState.controls 30 bDot0 bDot2 = (0, 0) :=
    pairAccel_coincident _ _ _ _ rfl rfl
  have hp10 : pairAccel battleState.controls 30 bDot1 bDot0 = (0, 0) :=
    pairAccel_coincident _ _ _ _ rfl rfl
  have hp12 : pairAccel battleState.controls 30 bDot1 bDot2 = (0, 0) :=
    pairAccel_coincident _ _ _ _ rfl rfl
  have hp20 : pairAccel battleState.controls 30 bDot2 bDot0 = (0, 0) :=
    pairAccel_coincident _ _ _ _ rfl rfl
  have hp21 : pairAccel battleState.controls 30 bDot2 bDot1 = (0, 0) :=
    pairAccel_coincident _ _ _ _ rfl rfl
  have hx15 : ([bDot0, bDot1, bDot2].getD i default).x = 15 := by
    interval_cases i <;> rfl
  have hy18 : ([bDot0, bDot1, bDot2].getD i default).y = 18 := by
    interval_cases i <;> rfl
  unfold neighborAccel
  dsimp only
  rw [hx15, hy18]
  have hfx : (⌊(15 : ℝ) / 30⌋ : ℤ) = 0 := by norm_num
  have hfy : (⌊(18 : ℝ) / 30⌋ : ℤ) = 0 := by norm_num
  rw [hfx, hfy]
  interval_cases i <;>
    norm_num [offsets, b3Grid_eval, hp01, hp02, hp10, hp12, hp20, hp21, Prod.ext_iff]

theorem clampSpeed_zero : clampSpeed 0 0 = (0, 0) := by
  unfold clampSpeed
  dsimp only
  have h0 : Real.sqrt (0 * 0 + 0 * 0) = 0 := by
    rw [show (0 : ℝ) * 0 + 0 * 0 = 0 by norm_num]
    exact Real.sqrt_zero
  rw [h0, if_neg (by norm_num : ¬ (0 : ℝ) > 3)]

theorem b3Wall_eval (d : Dot) (hx : d.x = 15) (hy : d.y = 18) (hs : d.size = 2) :
    wallIntegrate 30 44 battleState.controls 30 1 d (0, 0)
      = { d with x := 15, y := 18, vx := 0, vy := 0 } := by
  unfold wallIntegrate
  dsimp only
  rw [hx, hy, hs]
  have hwr : max (20 : ℝ) (30 * 0.5) = 20 := by norm_num
  rw [hwr]
  norm_num [battleState, battleControls, cexControls, padLeft, padRight, padTop, padBottom,
    min_def, max_def, Dot.mk.injEq]

theorem b3Move_eval (i : ℕ) (hi : i < 3) :
    moveDot battleState (buildGrid 1 2 30 [bDot0, bDot1, bDot2]) 1 2 30 30 1
      [bDot0, bDot1, bDot2] i = [bDot0, bDot1, bDot2].getD i default := by
  unfold moveDot
  dsimp only
  rw [b3Accel_eval i hi]
  have hvx : ([bDot0, bDot1, bDot2].getD i default).vx = 0 := by
    interval_cases i <;> rfl
  have hvy : ([bDot0, bDot1, bDot2].getD i default).vy = 0 := by
    interval_cases i <;> rfl
  rw [show (([bDot0, bDot1, bDot2].getD i default).vx + ((0:ℝ),(0:ℝ)).1 * 1) = (0:ℝ) by
      rw [hvx]; norm_num,
    show (([bDot0, bDot1, bDot2].getD i default).vy + ((0:ℝ),(0:ℝ)).2 * 1) = (0:ℝ) by
      rw [hvy]; norm_num,
    clampSpeed_zero]
  have hmouse : mouseForce battleState.mouse battleState.controls 1
      ([bDot0, bDot1, bDot2].getD i default) (0, 0) = (0, 0) := by
    unfold mouseForce
    rw [if_neg]
    intro hcon
    have : battleState.mouse.active = true := hcon.1
    simp [battleState, idleMouse] at this
  have himp : impulseForce battleState.clickImpulse 1
      ([bDot0, bDot1, bDot2].getD i default) (0, 0) = (0, 0) := rfl
  rw [hmouse, himp]
  have hW : battleState.viewWidth = 30 := rfl
  have hH : battleState.viewHeight = 44 := rfl
  rw [hW, hH]
  have hx15 : ([bDot0, bDot1, bDot2].getD i default).x = 15 := by
    interval_cases i <;> rfl
  have hy18 : ([bDot0, bDot1, bDot2].getD i default).y = 18 := by
    interval_cases i <;> rfl
  have hs2 : ([bDot0, bDot1, bDot2].getD i default).size = 2 := by
    interval_cases i <;> rfl
  rw [b3Wall_eval _ hx15 hy18 hs2]
  interval_cases i
  · show ({ bDot0 with x := 15, y := 18, vx := 0, vy := 0 } : Dot) = bDot0
    simp [bDot0]
  · show ({ bDot1 with x := 15, y := 18, vx := 0, vy := 0 } : Dot) = bDot1
    simp [bDot1, bDot0]
  · show ({ bDot2 with x := 15, y := 18, vx := 0, vy := 0 } : Dot) = bDot2
    simp [bDot2, bDot0]

theorem b3IR : influenceRadiusOf battleState.controls = 30 := by
  norm_num [influenceRadiusOf, battleState, battleControls, cexControls]

theorem b3CS : max (8 : ℝ) (influenceRadiusOf battleState.controls) = 30 := by
  rw [b3IR]; norm_num

theorem b3Cols :
    (⌈battleState.viewWidth / max (8 : ℝ) (influenceRadiusOf battleState.controls)⌉ : ℤ)
      = 1 := by
  rw [b3CS, show battleState.viewWidth = 30 from rfl, show (30 : ℝ) / 30 = 1 by norm_num]
  norm_num

theorem b3Rows :
    (⌈battleState.viewHeight / max (8 : ℝ) (influenceRadiusOf battleState.controls)⌉ : ℤ)
      = 2 := by
  rw [b3CS, show battleState.viewHeight = 44 from rfl]
  rw [Int.ceil_eq_iff]
  norm_num

theorem b3Run_dots : (runMovement battleState 1).1.dots = [bDot0, bDot1, bDot2] := by
  unfold runMovement
  dsimp only
  rw [b3Cols, b3Rows, b3CS, b3IR]
  have hdots : battleState.dots = [bDot0, bDot1, bDot2] := rfl
  rw [hdots]
  simp only [List.length_cons, List.length_nil, List.range_succ, List.range_zero,
    List.nil_append, List.cons_append, List.foldl_cons, List.foldl_nil]
  rw [b3Move_eval 0 (by norm_num)]
  simp only [List.getD_cons_zero, List.set_cons_zero]
  rw [b3Move_eval 1 (by norm_num)]
  simp only [List.getD_cons_zero, List.getD_cons_succ, List.set_cons_zero, List.set_cons_succ]
  rw [b3Move_eval 2 (by norm_num)]
  simp only [List.getD_cons_zero, List.getD_cons_succ, List.set_cons_zero, List.set_cons_succ]

theorem b3Run_grid :
    (runMovement battleState 1).2 = buildGrid 1 2 30 [bDot0, bDot1, bDot2] := by
  unfold runMovement
  dsimp only
  rw [b3Cols, b3Rows, b3CS]
  rfl

theorem b3Encs :
    battleEncounters (buildGrid 1 2 30 [bDot0, bDot1, bDot2]) 1 2
      = [(0, 0), (0, 1), (0, 2), (1, 0), (1, 1), (1, 2), (2, 0), (2, 1), (2, 2)] := by
  unfold battleEncounters
  simp only [show Int.toNat 2 = 2 from rfl, show Int.toNat 1 = 1 from rfl,
    List.range_succ, List.range_zero, List.nil_append, List.cons_append,
    List.flatMap_cons, List.flatMap_nil, offsets]
  norm_num [b3Grid_eval, Prod.mk.injEq]

theorem b3Fire01 :
    battleStep ((10 : ℝ) * 10) battleRand
      ⟨[⟨15, 18, 0, 0, 2, 0⟩, ⟨15, 18, 0, 0, 2, 1⟩, ⟨15, 18, 0, 0, 2, 2⟩], 0, []⟩ (0, 1)
    = ⟨[⟨15, 18, 0, 0, 2, 0⟩, ⟨15, 18, 0, 0, 2, 0⟩, ⟨15, 18, 0, 0, 2, 2⟩], 1, [(0, 1)]⟩ := by
  unfold battleStep
  dsimp only [List.getD_cons_zero, List.getD_cons_succ]
  rw [if_neg (by norm_num), if_pos (by norm_num)]
  unfold battleOutcome
  dsimp only
  rw [if_pos (by norm_num [battleRand])]
  rfl

theorem b3Fire02 :
    battleStep ((10 : ℝ) * 10) battleRand
      ⟨[⟨15, 18, 0, 0, 2, 0⟩, ⟨15, 18, 0, 0, 2, 0⟩, ⟨15, 18, 0, 0, 2, 2⟩], 1, [(0, 1)]⟩ (0, 2)
    = ⟨[⟨15, 18, 0, 0, 2, 2⟩, ⟨15, 18, 0, 0, 2, 0⟩, ⟨15, 18, 0, 0, 2, 2⟩], 2,
        [(0, 1), (0, 2)]⟩ := by
  unfold battleStep
  dsimp only [List.getD_cons_zero, List.getD_cons_succ]
  rw [if_neg (by norm_num), if_pos (by norm_num)]
  unfold battleOutcome
  dsimp only
  rw [if_neg (by norm_num [battleRand])]
  rfl

theorem b3Fire10 :
    battleStep ((10 : ℝ) * 10) battleRand
      ⟨[⟨15, 18, 0, 0, 2, 2⟩, ⟨15, 18, 0, 0, 2, 0⟩, ⟨15, 18, 0, 0, 2, 2⟩], 2,
        [(0, 1), (0, 2)]⟩ (1, 0)
    = ⟨[⟨15, 18, 0, 0, 2, 0⟩, ⟨15, 18, 0, 0, 2, 0⟩, ⟨15, 18, 0, 0, 2, 2⟩], 3,
        [(0, 1), (0, 2), (1, 0)]⟩ := by
  unfold battleStep
  dsimp only [List.getD_cons_zero, List.getD_cons_succ]
  rw [if_neg (by norm_num), if_pos (by norm_num)]
  unfold battleOutcome
  dsimp only
  rw [if_pos (by norm_num [battleRand])]
  rfl

theorem b3Fire12 :
    battleStep ((10 : ℝ) * 10) battleRand
      ⟨[⟨15, 18, 0, 0, 2, 0⟩, ⟨15, 18, 0, 0, 2, 0⟩, ⟨15, 18, 0, 0, 2, 2⟩], 3,
        [(0, 1), (0, 2), (1, 0)]⟩ (1, 2)
    = ⟨[⟨15, 18, 0, 0, 2, 0⟩, ⟨15, 18, 0, 0, 2, 0⟩, ⟨15, 18, 0, 0, 2, 0⟩], 4,
        [(0, 1), (0, 2), (1, 0), (1, 2)]⟩ := by
  unfold battleStep
  dsimp only [List.getD_cons_zero, List.getD_cons_succ]
  rw [if_neg (by norm_num), if_pos (by norm_num)]
  unfold battleOutcome
  dsimp only
  rw [if_pos (by norm_num [battleRand])]
  rfl

/-- C1 counterexample: one call to `update` in battle mode on three coincident
agents of three different groups, with the concrete draw stream `battleRand`,
executes the conversion contest for the unordered pair `{0, 1}` twice — the
intervening contest of agent `0` with agent `2` changes agent `0`'s group
between the two encounters of the pair, and no per-tick "processed" marking
exists to stop the second resolution. -/
theorem battle_pair_double_resolution_cex :
    2 ≤ countPair ((update battleState 1 battleRand).2) 0 1 := by
  have hbr : ¬ battleState.controls.battleRadius ≤ 0 := by
    norm_num [battleState, battleControls, cexControls]
  have hdec : impulseDecay battleState 1 = battleState := rfl
  have hupd : (update battleState 1 battleRand).2
      = (resolveBattles (runMovement battleState 1).1 (runMovement battleState 1).2
          battleState.controls.battleRadius battleRand).2 := by
    unfold update
    dsimp only
    rw [hdec, if_neg hbr]
  rw [hupd]
  unfold resolveBattles
  dsimp only
  have hmw : (runMovement battleState 1).1.viewWidth = 30 := by
    rw [(runMovement_frame battleState 1).1]
    rfl
  have hmh : (runMovement battleState 1).1.viewHeight = 44 := by
    rw [(runMovement_frame battleState 1).2.1]
    rfl
  have hmc : (runMovement battleState 1).1.controls = battleControls := by
    rw [(runMovement_frame battleState 1).2.2.1]
    rfl
  have hmax : max (8 : ℝ) (battleControls.maxSize * 5) = 30 := by
    norm_num [battleControls, cexControls]
  have hcols : (⌈(runMovement battleState 1).1.viewWidth /
      max (8 : ℝ) ((runMovement battleState 1).1.controls.maxSize * 5)⌉ : ℤ) = 1 := by
    rw [hmw, hmc, hmax, show (30 : ℝ) / 30 = 1 by norm_num]
    norm_num
  have hrows : (⌈(runMovement battleState 1).1.viewHeight /
      max (8 : ℝ) ((runMovement battleState 1).1.controls.maxSize * 5)⌉ : ℤ) = 2 := by
    rw [hmh, hmc, hmax]
    rw [Int.ceil_eq_iff]
    norm_num
  rw [hcols, hrows, b3Run_grid, b3Encs, b3Run_dots,
    show battleState.controls.battleRadius = (10 : ℝ) from rfl]
  rw [show ([bDot0, bDot1, bDot2] : List Dot)
      = [⟨15, 18, 0, 0, 2, 0⟩, ⟨15, 18, 0, 0, 2, 1⟩, ⟨15, 18, 0, 0, 2, 2⟩] from rfl]
  rw [List.foldl_cons,
    show battleStep ((10 : ℝ) * 10) battleRand
      ⟨[⟨15, 18, 0, 0, 2, 0⟩, ⟨15, 18, 0, 0, 2, 1⟩, ⟨15, 18, 0, 0, 2, 2⟩], 0, []⟩ (0, 0)
      = ⟨[⟨15, 18, 0, 0, 2, 0⟩, ⟨15, 18, 0, 0, 2, 1⟩, ⟨15, 18, 0, 0, 2, 2⟩], 0, []⟩ from by
        unfold battleStep
        dsimp only [List.getD_cons_zero, List.getD_cons_succ]
        rw [if_pos (Or.inl rfl)]]
  rw [List.foldl_cons, b3Fire01, List.foldl_cons, b3Fire02, List.foldl_cons, b3Fire10]
  rw [List.foldl_cons,
    show battleStep ((10 : ℝ) * 10) battleRand
      ⟨[⟨15, 18, 0, 0, 2, 0⟩, ⟨15, 18, 0, 0, 2, 0⟩, ⟨15, 18, 0, 0, 2, 2⟩], 3,
        [(0, 1), (0, 2), (1, 0)]⟩ (1, 1)
      = ⟨[⟨15, 18, 0, 0, 2, 0⟩, ⟨15, 18, 0, 0, 2, 0⟩, ⟨15, 18, 0, 0, 2, 2⟩], 3,
        [(0, 1), (0, 2), (1, 0)]⟩ from by
        unfold battleStep
        dsimp only [List.getD_cons_zero, List.getD_cons_succ]
        rw [if_pos (Or.inl rfl)]]
  rw [List.foldl_cons, b3Fire12]
  rw [List.foldl_cons,
    show battleStep ((10 : ℝ) * 10) battleRand
      ⟨[⟨15, 18, 0, 0, 2, 0⟩, ⟨15, 18, 0, 0, 2, 0⟩, ⟨15, 18, 0, 0, 2, 0⟩], 4,
        [(0, 1), (0, 2), (1, 0), (1, 2)]⟩ (2, 0)
      = ⟨[⟨15, 18, 0, 0, 2, 0⟩, ⟨15, 18, 0, 0, 2, 0⟩, ⟨15, 18, 0, 0, 2, 0⟩], 4,
        [(0, 1), (0, 2), (1, 0), (1, 2)]⟩ from by
        unfold battleStep
        dsimp only [List.getD_cons_zero, List.getD_cons_succ]
        rw [if_pos (Or.inr rfl)]]
  rw [List.foldl_cons,
    show battleStep ((10 : ℝ) * 10) battleRand
      ⟨[⟨15, 18, 0, 0, 2, 0⟩, ⟨15, 18, 0, 0, 2, 0⟩, ⟨15, 18, 0, 0, 2, 0⟩], 4,
        [(0, 1), (0, 2), (1, 0), (1, 2)]⟩ (2, 1)
      = ⟨[⟨15, 18, 0, 0, 2, 0⟩, ⟨15, 18, 0, 0, 2, 0⟩, ⟨15, 18, 0, 0, 2, 0⟩], 4,
        [(0, 1), (0, 2), (1, 0), (1, 2)]⟩ from by
        unfold battleStep
        dsimp only [List.getD_cons_zero, List.getD_cons_succ]
        rw [if_pos (Or.inr rfl)]]
  rw [List.foldl_cons,
    show battleStep ((10 : ℝ) * 10) battleRand
      ⟨[⟨15, 18, 0, 0, 2, 0⟩, ⟨15, 18, 0, 0, 2, 0⟩, ⟨15, 18, 0, 0, 2, 0⟩], 4,
        [(0, 1), (0, 2), (1, 0), (1, 2)]⟩ (2, 2)
      = ⟨[⟨15, 18, 0, 0, 2, 0⟩, ⟨15, 18, 0, 0, 2, 0⟩, ⟨15, 18, 0, 0, 2, 0⟩], 4,
        [(0, 1), (0, 2), (1, 0), (1, 2)]⟩ from by
        unfold battleStep
        dsimp only [List.getD_cons_zero, List.getD_cons_succ]
        rw [if_pos (Or.inl rfl)]]
  rw [List.foldl_nil]
  decide

end

end DotBattle
